import Mathlib

set_option maxRecDepth 10000

/-!
Verification of the Command Interpretation and Task Analytics Engine of the
Hackathon_2_Phase_1_to_5 repository.  The backend agent code
(backend/src/agent/todo_agent.py, backend/src/agent/strategist_agent.py and
backend/src/routers/agent.py) is described by the repository documentation but
its source is not part of the tree given here, so the parser, dispatcher and
analytics engine below are modelled from the specification; the
DbTaskManager ownership logic and the phase_V frontend service layer are
translated from code excerpts that are present in the tree.
-/

/- ## Character-level string utilities (regex semantics of the parser) -/

/-- Drop leading whitespace characters, the semantics of a greedy leading
whitespace match. -/
def dropWs : List Char → List Char
  | [] => []
  | c :: cs => if c.isWhitespace then dropWs cs else c :: cs

/-- Drop trailing whitespace characters. -/
def trimRight (l : List Char) : List Char := (dropWs l.reverse).reverse

/-- Trim whitespace on both sides, the model of trimming the utterance before
matching. -/
def trimChars (l : List Char) : List Char := trimRight (dropWs l)

/-- Case-insensitive literal match of a keyword (given in lowercase) at the
head of the input; returns the rest of the input after the keyword. -/
def stripCI : List Char → List Char → Option (List Char)
  | [], rest => some rest
  | _ :: _, [] => none
  | k :: ks, c :: cs => if c.toLower = k then stripCI ks cs else none

/-- Match a keyword followed by at least one whitespace character, consuming
the whole whitespace run greedily; the semantics of the regex piece
kw followed by one or more whitespace characters. -/
def stripKwWs (kw : List Char) (l : List Char) : Option (List Char) :=
  match stripCI kw l with
  | none => none
  | some [] => none
  | some (c :: cs) => if c.isWhitespace then some (dropWs cs) else none

def addKw : List Char := "add".data
def createKw : List Char := "create".data
def taskKw : List Char := "task".data
def listKw : List Char := "list".data
def showKw : List Char := "show".data
def tasksKw : List Char := "tasks".data
def completeKw : List Char := "complete".data
def doneKw : List Char := "done".data
def deleteKw : List Char := "delete".data
def removeKw : List Char := "remove".data
def updateKw : List Char := "update".data

/-- Parse a non-empty all-digit capture as a positive integer, the model of
requiring a digit-run capture to parse as a positive integer. -/
def parsePosNat (l : List Char) : Option Nat :=
  if l ≠ [] ∧ l.all (fun c => c.isDigit) then
    let n := l.foldl (fun acc c => acc * 10 + (c.toNat - 48)) 0
    if 0 < n then some n else none
  else none

/- ## The Command data model  -/

/-- Modelled from the spec: the closed tagged union of parsed intents from
section 3 of the specification (the source backend/src/agent/todo_agent.py is
not in the tree). -/
inductive Command where
  | addTask (title description : String)
  | listTasks (filter : Option String)
  | completeTask (id : Nat)
  | deleteTask (id : Nat)
  | updateTask (id : Nat) (newTitle : String)
  | unrecognized (rawText : String)
  deriving Repr, DecidableEq

/-- Modelled from the spec: rule 1 of section 4.1, the regex
caret (add|create) ws+ (task ws+)? (.+) dollar with a greedy title capture;
the optional task keyword group commits only when a non-empty title remains,
exactly as regex backtracking behaves. -/
def rule1 (s : List Char) : Option Command :=
  match (stripKwWs addKw s).orElse (fun _ => stripKwWs createKw s) with
  | none => none
  | some [] => none
  | some (c :: cs) =>
    let cap3 :=
      match stripKwWs taskKw (c :: cs) with
      | some (d :: ds) => d :: ds
      | _ => c :: cs
    some (Command.addTask (String.mk (trimChars cap3)) "")

/-- Helper for rule 2: the keyword alone, or the keyword, whitespace and the
literal word tasks. -/
def rule2kw (kw : List Char) (s : List Char) : Bool :=
  match stripCI kw s with
  | none => false
  | some [] => true
  | some (c :: cs) =>
    match stripCI tasksKw (dropWs cs) with
    | some [] => c.isWhitespace
    | _ => false

/-- Modelled from the spec: rule 2 of section 4.1, the regex
caret (list|show) (ws+ tasks)? dollar. -/
def rule2 (s : List Char) : Option Command :=
  if rule2kw listKw s || rule2kw showKw s then some (Command.listTasks none)
  else none

/-- Modelled from the spec: rules 3 and 4 of section 4.1, a keyword pair
followed by a digit capture that must parse as a positive integer. -/
def ruleIdCmd (kw1 kw2 : List Char) (mk : Nat → Command) (s : List Char) :
    Option Command :=
  match (stripKwWs kw1 s).orElse (fun _ => stripKwWs kw2 s) with
  | none => none
  | some rest => (parsePosNat rest).map mk

/-- Modelled from the spec: rule 5 of section 4.1, the regex
caret update ws+ (digits) ws+ (.+) dollar with the new title trimmed. -/
def rule5 (s : List Char) : Option Command :=
  match stripKwWs updateKw s with
  | none => none
  | some rest =>
    let ds := rest.takeWhile (fun c => c.isDigit)
    let r2 := rest.dropWhile (fun c => c.isDigit)
    match parsePosNat ds with
    | none => none
    | some n =>
      match r2 with
      | [] => none
      | c :: cs =>
        if c.isWhitespace then
          match dropWs cs with
          | [] => none
          | d :: ds2 => some (Command.updateTask n (String.mk (trimChars (d :: ds2))))
        else none

/-- Whether the optional task keyword group of rule 1 would consume a task
keyword at the head of the remaining input (leaving a non-empty title). -/
def takesTaskKw (l : List Char) : Bool :=
  match stripKwWs taskKw l with
  | some (_ :: _) => true
  | _ => false

/-- Modelled from the spec: parse of section 4.1 (the source
backend/src/agent/todo_agent.py is not in the tree).  The utterance is
whitespace-trimmed, the ordered rules are tried most-specific first, keyword
matching is case-insensitive, and any unmatched input yields Unrecognized
carrying the raw text. -/
def parse (text : String) : Command :=
  let s := trimChars text.data
  match rule1 s with
  | some c => c
  | none =>
  match rule2 s with
  | some c => c
  | none =>
  match ruleIdCmd completeKw doneKw Command.completeTask s with
  | some c => c
  | none =>
  match ruleIdCmd deleteKw removeKw Command.deleteTask s with
  | some c => c
  | none =>
  match rule5 s with
  | some c => c
  | none => Command.unrecognized text

/- ## Task snapshots and the analytics engine -/

/-- Modelled from the spec: the read-only task projection of section 3
(timestamps are seconds as natural numbers). -/
structure TaskSnapshot where
  id : Nat
  title : String
  completed : Bool
  createdAt : Nat
  updatedAt : Nat
  deriving Repr, DecidableEq

/-- Modelled from the spec: the stats block of the Report of section 3. -/
structure Stats where
  total : Nat
  completed : Nat
  pending : Nat
  completionRate : ℚ
  deriving Repr, DecidableEq

/-- Modelled from the spec: the Report of section 3. -/
structure Report where
  summary : String
  stats : Stats
  insights : List String
  recommendations : List String
  patterns : List String
  deriving Repr, DecidableEq

def completedCount (tasks : List TaskSnapshot) : Nat :=
  (tasks.filter (fun t => t.completed)).length

/-- The completion rate in tenths of a percent, computed by half-up rounding
in natural arithmetic, and zero when total is zero. -/
def rateTenths (total completed : Nat) : Nat :=
  if total = 0 then 0
  else (completed * 1000 * 2 + total) / (2 * total)

/-- Modelled from the spec: completionRate is completed divided by total times
one hundred, rounded to one decimal place, and zero when total is zero. -/
def completionRateOf (total completed : Nat) : ℚ :=
  if total = 0 then 0 else (rateTenths total completed : ℚ) / 10

/-- Modelled from the spec: the stats computation of section 4.3 step 1. -/
def mkStats (tasks : List TaskSnapshot) : Stats :=
  ⟨tasks.length, completedCount tasks, tasks.length - completedCount tasks,
   completionRateOf tasks.length (completedCount tasks)⟩

def emptyStateMsg : String := "You have no tasks yet. Add your first task to get started!"
def celebrateMsg : String := "Amazing work! You are crushing your task list!"
def encourageMsg : String := "Great progress! Keep going to clear your pending tasks."
def motivateMsg : String := "Time to get moving! Pick one task and start now."

/-- Modelled from the spec: the summary template choice of section 4.3 step 2,
selected by fixed completion-rate thresholds, with a dedicated empty state. -/
def summaryOf (st : Stats) : String :=
  if st.total = 0 then emptyStateMsg
  else if 80 ≤ st.completionRate then celebrateMsg
  else if 40 ≤ st.completionRate then encourageMsg
  else motivateMsg

def excellentMsg : String := "You have an excellent completion rate! Keep up the momentum."
def activePre : String := "You have been very active recently with "
def activeSuf : String := " tasks created in the last 7 days."
def activeMsg (n : Nat) : String := activePre ++ toString n ++ activeSuf

/-- Modelled from the spec: the number of tasks created within the last 7 days
relative to the supplied clock value. -/
def recentCount (now : Nat) (tasks : List TaskSnapshot) : Nat :=
  tasks.countP (fun t => decide (now ≤ t.createdAt + 7 * 86400))

/-- Modelled from the spec: the insights of section 4.3 step 3, two
independent observations in evaluation order, with thresholds 75 for the
completion rate and 3 for recent activity. -/
def insightsOf (now : Nat) (tasks : List TaskSnapshot) (st : Stats) : List String :=
  (if 75 ≤ st.completionRate then [excellentMsg] else []) ++
  (if 3 ≤ recentCount now tasks then [activeMsg (recentCount now tasks)] else [])

def pendingOf (tasks : List TaskSnapshot) : List TaskSnapshot :=
  tasks.filter (fun t => !t.completed)

/-- The task that has been pending longer, preferring the left argument on
equal creation times. -/
def olderOf (a b : TaskSnapshot) : TaskSnapshot :=
  if b.createdAt < a.createdAt then b else a

/-- The pending task with the smallest createdAt, when any pending task
exists. -/
def oldestPending (l : List TaskSnapshot) : Option TaskSnapshot :=
  match l with
  | [] => none
  | t :: ts => some (ts.foldl olderOf t)

def recLine (t : TaskSnapshot) : String :=
  "Start with task #" ++ toString t.id ++ ": " ++ t.title ++
    " - it has been pending the longest."
def quickWinsMsg : String :=
  "Try completing 2-3 small tasks today for quick wins and momentum."

/-- Modelled from the spec: the recommendations of section 4.3 step 4, with
the oldest pending task first, a generic quick-wins suggestion when more than
one task is pending, and a hard cap of five entries. -/
def recommendationsOf (tasks : List TaskSnapshot) : List String :=
  let pend := pendingOf tasks
  ((match oldestPending pend with
    | some t => [recLine t]
    | none => []) ++
   (if 1 < pend.length then [quickWinsMsg] else [])).take 5

/- ### Patterns -/

/-- Split a character list into maximal whitespace-free words. -/
def splitWordsAux : List Char → List Char → List (List Char)
  | [], cur => if cur = [] then [] else [cur.reverse]
  | c :: cs, cur =>
    if c.isWhitespace then
      if cur = [] then splitWordsAux cs [] else cur.reverse :: splitWordsAux cs []
    else splitWordsAux cs (c :: cur)

def stopWords : List (List Char) :=
  ["the".data, "and".data, "for".data, "with".data, "this".data,
   "that".data, "from".data, "your".data]

/-- Modelled from the spec: all title tokens, lowercased, with stop-words and
words shorter than three characters dropped. -/
def keywordsOf (tasks : List TaskSnapshot) : List (List Char) :=
  ((tasks.map (fun t => splitWordsAux (t.title.data.map Char.toLower) [])).flatten).filter
    (fun w => decide (3 ≤ w.length ∧ w ∉ stopWords))

def countIn (ws : List (List Char)) (w : List Char) : Nat :=
  ws.countP (fun v => decide (v = w))

/-- The distinct elements of a list in order of first occurrence. -/
def firstOccur (l : List (List Char)) : List (List Char) :=
  l.foldl (fun acc w => if w ∈ acc then acc else acc ++ [w]) []

/-- Modelled from the spec: the distinct keywords paired with their
frequencies, restricted to the minimum count threshold of two. -/
def themePairs (tasks : List TaskSnapshot) : List (List Char × Nat) :=
  let ks := keywordsOf tasks
  ((firstOccur ks).map (fun w => (w, countIn ks w))).filter
    (fun p => decide (2 ≤ p.2))

/-- Modelled from the spec: the top three qualifying words by descending
frequency. -/
def topThemes (tasks : List TaskSnapshot) : List (List Char × Nat) :=
  (List.insertionSort (fun p q : List Char × Nat => q.2 ≤ p.2)
    (themePairs tasks)).take 3

def themeEntry (p : List Char × Nat) : String :=
  String.mk p.1 ++ " (" ++ toString p.2 ++ ")"
def fallbackMsg : String :=
  "Your tasks have concise titles - great for quick scanning!"

/-- Modelled from the spec: the patterns of section 4.3 step 5; the zero-task
edge case of section 4.3 yields an empty pattern sequence, otherwise the
qualifying common themes are reported, with a neutral fallback observation
when no word clears the threshold. -/
def patternsOf (tasks : List TaskSnapshot) : List String :=
  if tasks.isEmpty then []
  else
    match topThemes tasks with
    | [] => [fallbackMsg]
    | p :: ps =>
      ["Common themes: " ++ String.intercalate ", " ((p :: ps).map themeEntry)]

/-- Modelled from the spec: analyze of section 4.3 (the source
backend/src/agent/strategist_agent.py is not in the tree).  The clock value
used for the recent-activity insight is passed explicitly, keeping the
function pure. -/
def analyze (now : Nat) (tasks : List TaskSnapshot) : Report :=
  let st := mkStats tasks
  ⟨summaryOf st, st, insightsOf now tasks st, recommendationsOf tasks,
   patternsOf tasks⟩

/- ## DbTaskManager and the command dispatcher -/

/-- A persisted task row; translated from the DbTaskManager code excerpt in
src/unnamed/part_016 (tasks carry the owning user id). -/
structure DbTask where
  id : Nat
  user_id : Nat
  title : String
  description : String
  completed : Bool
  createdAt : Nat
  deriving Repr, DecidableEq

/-- The database-backed task manager of the excerpt in src/unnamed/part_016:
a session (here the task table) together with the authenticated user id. -/
structure DbTaskManager where
  user_id : Nat
  tasks : List DbTask
  deriving Repr, DecidableEq

/-- Primary-key lookup over the whole table, the model of session.get. -/
def sessionGet (tasks : List DbTask) (tid : Nat) : Option DbTask :=
  tasks.find? (fun t => decide (t.id = tid))

/-- Translated from the code excerpt in src/unnamed/part_016 lines 179-184:
fetch the task by id, return none when it is absent or owned by another user,
otherwise flip its completed flag (the flip itself is the documented rest of
the function). -/
def toggle_task_completion (m : DbTaskManager) (tid : Nat) :
    Option DbTask × DbTaskManager :=
  match sessionGet m.tasks tid with
  | none => (none, m)
  | some task =>
    if task.user_id ≠ m.user_id then (none, m)
    else
      let task2 : DbTask :=
        ⟨task.id, task.user_id, task.title, task.description,
         !task.completed, task.createdAt⟩
      (some task2,
       ⟨m.user_id, m.tasks.map (fun t => if t.id = tid then task2 else t)⟩)

/-- Translated from the code excerpt in src/unnamed/part_016 lines 176-177:
list only the tasks owned by the authenticated user. -/
def get_all_tasks (m : DbTaskManager) : List DbTask :=
  m.tasks.filter (fun t => decide (t.user_id = m.user_id))

/-- Modelled from the spec: repository create of section 6, inserting a fresh
task owned by the authenticated user. -/
def create_task (m : DbTaskManager) (title description : String) :
    DbTask × DbTaskManager :=
  let nid := (m.tasks.map (fun t => t.id)).foldl max 0 + 1
  let t : DbTask := ⟨nid, m.user_id, title, description, false, 0⟩
  (t, ⟨m.user_id, m.tasks ++ [t]⟩)

/-- Modelled from the spec: repository delete of section 6 with the same
ownership discipline as the toggle excerpt. -/
def delete_task (m : DbTaskManager) (tid : Nat) : Bool × DbTaskManager :=
  match sessionGet m.tasks tid with
  | none => (false, m)
  | some task =>
    if task.user_id ≠ m.user_id then (false, m)
    else (true, ⟨m.user_id, m.tasks.filter (fun t => decide (t.id ≠ tid))⟩)

/-- Modelled from the spec: repository update of section 6 with the same
ownership discipline as the toggle excerpt. -/
def update_task (m : DbTaskManager) (tid : Nat) (newTitle : String) :
    Option DbTask × DbTaskManager :=
  match sessionGet m.tasks tid with
  | none => (none, m)
  | some task =>
    if task.user_id ≠ m.user_id then (none, m)
    else
      let task2 : DbTask :=
        ⟨task.id, task.user_id, newTitle, task.description,
         task.completed, task.createdAt⟩
      (some task2,
       ⟨m.user_id, m.tasks.map (fun t => if t.id = tid then task2 else t)⟩)

/-- Modelled from the spec: the error taxonomy of section 7. -/
inductive DispatchError where
  | parseError (help : String)
  | validationError (msg : String)
  | notFoundError
  | repositoryError
  deriving Repr, DecidableEq

def helpMsg : String :=
  "I did not understand that. Supported commands: add <title>, list, complete <id>, delete <id>, update <id> <new title>."

def renderTask (t : DbTask) : String :=
  toString t.id ++ ". " ++ (if t.completed then "[x] " else "[ ] ") ++ t.title

def renderListing (ts : List DbTask) : String :=
  if ts.isEmpty then "No tasks yet. Add one to get started!"
  else String.intercalate "\n" (ts.map renderTask)

/-- Modelled from the spec: the uniform rendering of errors of section 7; a
missing or unowned id is always surfaced as the same message. -/
def renderError : DispatchError → String
  | DispatchError.parseError h => h
  | DispatchError.validationError msg => msg
  | DispatchError.notFoundError => "Task not found"
  | DispatchError.repositoryError => "Something went wrong. Please try again later."

/-- Modelled from the spec: the command dispatcher of section 4.2 (the source
backend agent code is not in the tree).  The result carries the outcome, the
repository after the call, and whether any repository operation was invoked. -/
def execute (cmd : Command) (m : DbTaskManager) :
    Except DispatchError String × DbTaskManager × Bool :=
  match cmd with
  | Command.addTask title _desc =>
    if String.mk (trimChars title.data) = "" then
      (Except.error (DispatchError.validationError "Task title cannot be empty."), m, false)
    else
      let r := create_task m title _desc
      (Except.ok ("Task \x27" ++ title ++ "\x27 added successfully!"), r.2, true)
  | Command.listTasks _filter =>
    (Except.ok (renderListing (get_all_tasks m)), m, true)
  | Command.completeTask tid =>
    match toggle_task_completion m tid with
    | (none, m2) => (Except.error DispatchError.notFoundError, m2, true)
    | (some t, m2) =>
      (Except.ok ("Task " ++ toString tid ++
        (if t.completed then " marked as complete!" else " marked as pending!")), m2, true)
  | Command.deleteTask tid =>
    match delete_task m tid with
    | (false, m2) => (Except.error DispatchError.notFoundError, m2, true)
    | (true, m2) =>
      (Except.ok ("Task " ++ toString tid ++ " deleted successfully!"), m2, true)
  | Command.updateTask tid newTitle =>
    if String.mk (trimChars newTitle.data) = "" then
      (Except.error (DispatchError.validationError "New title cannot be empty."), m, false)
    else
      match update_task m tid newTitle with
      | (none, m2) => (Except.error DispatchError.notFoundError, m2, true)
      | (some _, m2) =>
        (Except.ok ("Task " ++ toString tid ++ " updated successfully!"), m2, true)
  | Command.unrecognized _raw =>
    (Except.error (DispatchError.parseError helpMsg), m, false)

/- ## The phase_V frontend service layer stubs -/

/-- An HTTP request a frontend service call issues through the axios
client. -/
structure HttpRequest where
  method : String
  path : String
  deriving Repr, DecidableEq

/-- The response shape of the agent prompt endpoint in the frontend types. -/
structure AgentPromptValue where
  response : String
  deriving Repr, DecidableEq

/-- The stats shape of the analyze endpoint in the frontend types. -/
structure AnalyzeStatsValue where
  total : Nat
  completed : Nat
  pending : Nat
  completion_rate : ℚ
  deriving Repr, DecidableEq

/-- The response shape of the analyze endpoint in the frontend types. -/
structure AnalyzeValue where
  summary : String
  insights : List String
  recommendations : List String
  patterns : List String
  stats : AnalyzeStatsValue
  deriving Repr, DecidableEq

/-- Translated from src/phase_III/frontend/src/lib/api.ts lines 55-58: the
phase_III client posts the prompt to the agent endpoint and returns the
server response; the server behavior is a parameter, and the issued request
is recorded. -/
def phaseIII_agentPrompt (server : HttpRequest → String) (_prompt : String) :
    AgentPromptValue × List HttpRequest :=
  (⟨server ⟨"POST", "/api/v1/agent/prompt"⟩⟩, [⟨"POST", "/api/v1/agent/prompt"⟩])

/-- Translated from src/unnamed/part_014 lines 53-53 (the phase_V frontend
src/lib/api.ts): taskService.agentPrompt returns a constant object and issues
no request through the axios client. -/
def phaseV_agentPrompt (_server : HttpRequest → String) (_prompt : String) :
    AgentPromptValue × List HttpRequest :=
  (⟨"Assistant logic to be implemented"⟩, [])

/-- Translated from src/unnamed/part_014 lines 54-58 (the phase_V frontend
src/lib/api.ts): taskService.analyzeTask returns a constant empty report and
issues no request through the axios client. -/
def phaseV_analyzeTask (_server : HttpRequest → String) :
    AnalyzeValue × List HttpRequest :=
  (⟨"No analysis available", [], [], [], ⟨0, 0, 0, 0⟩⟩, [])

/- ## Concrete scenario fixtures -/

/-- The first task of the scenario in section 8 of the specification. -/
def buyMilkTask : TaskSnapshot := ⟨1, "buy milk", false, 0, 0⟩

/-- The second task of the scenario in section 8 of the specification, created
later than the first and already completed. -/
def buyBreadTask : TaskSnapshot := ⟨2, "buy bread", true, 1, 1⟩

/-- The two-task scenario list of section 8 of the specification. -/
def scenarioTasks : List TaskSnapshot := [buyMilkTask, buyBreadTask]

example : mkStats scenarioTasks = ⟨2, 1, 1, 50⟩ := by
  have h : completedCount scenarioTasks = 1 := by decide
  have hl : scenarioTasks.length = 2 := by decide
  simp only [mkStats, h, hl, Stats.mk.injEq, completionRateOf, rateTenths]
  norm_num
example : completionRateOf 12 8 = 667 / 10 := by
  norm_num [completionRateOf, rateTenths]
example : completionRateOf 3 1 = 333 / 10 := by
  norm_num [completionRateOf, rateTenths]
example : patternsOf scenarioTasks = ["Common themes: buy (2)"] := by decide
example : recommendationsOf scenarioTasks =
    ["Start with task #1: buy milk - it has been pending the longest."] := by decide
example : analyze 0 [] = ⟨emptyStateMsg, ⟨0, 0, 0, 0⟩, [], [], []⟩ := by decide
example : patternsOf [] = [] := by decide
example : topThemes [] = [] := by decide

/-- The repository fixture for dispatcher witnesses: user 5 owns task 7. -/
def witnessRepo : DbTaskManager := ⟨5, [⟨7, 5, "Buy milk", "", false, 0⟩]⟩

/-- The task row of the witness repository. -/
def witnessTask : DbTask := ⟨7, 5, "Buy milk", "", false, 0⟩

/-- A task row with its completed flag flipped, the documented effect of
toggle_task_completion. -/
def toggledDb (t : DbTask) : DbTask :=
  ⟨t.id, t.user_id, t.title, t.description, !t.completed, t.createdAt⟩

/- ## Helper lemmas -/

theorem completionRate_round (t c : ℕ) (ht : t ≠ 0) :
    completionRateOf t c = ((round ((c : ℚ) / t * 100 * 10) : ℤ) : ℚ) / 10 := by
  have ht' : (t : ℚ) ≠ 0 := Nat.cast_ne_zero.mpr ht
  have h2 : (c : ℚ) / t * 100 * 10 + 1 / 2 =
      ((c * 1000 * 2 + t : ℕ) : ℚ) / ((2 * t : ℕ) : ℚ) := by
    push_cast
    field_simp
    ring
  have h3 : round ((c : ℚ) / t * 100 * 10) = ((c * 1000 * 2 + t) / (2 * t) : ℕ) := by
    rw [round_eq, h2, Rat.floor_natCast_div_natCast, ← Int.natCast_div]
  rw [completionRateOf, rateTenths, if_neg ht, if_neg ht, h3, Int.cast_natCast]

/- ## Claim theorems -/

/-- C3: for every task sequence, analyze returns stats with total equal to
the sequence length, pending equal to total minus completed, completed plus
pending equal to total, completionRate equal to completed over total times
one hundred rounded to one decimal place (zero when total is zero), with
8 of 12 giving 66.7 and 1 of 2 giving exactly 50.0. -/
theorem claim_C3 (now : Nat) (tasks : List TaskSnapshot) :
    (analyze now tasks).stats.total = tasks.length ∧
    (analyze now tasks).stats.completed + (analyze now tasks).stats.pending =
      (analyze now tasks).stats.total ∧
    (analyze now tasks).stats.pending =
      (analyze now tasks).stats.total - (analyze now tasks).stats.completed ∧
    ((analyze now tasks).stats.total = 0 →
      (analyze now tasks).stats.completionRate = 0) ∧
    ((analyze now tasks).stats.total ≠ 0 →
      (analyze now tasks).stats.completionRate =
        ((round (((analyze now tasks).stats.completed : ℚ) /
            ((analyze now tasks).stats.total : ℚ) * 100 * 10) : ℤ) : ℚ) / 10) ∧
    completionRateOf 12 8 = 667 / 10 ∧ completionRateOf 2 1 = 50 := by
  refine ⟨rfl, ?_, rfl, ?_, ?_, ?_, ?_⟩
  · have h : completedCount tasks ≤ tasks.length := by
      unfold completedCount
      exact List.length_filter_le _ _
    show completedCount tasks + (tasks.length - completedCount tasks) = tasks.length
    omega
  · intro h0
    have h : tasks.length = 0 := h0
    show completionRateOf tasks.length (completedCount tasks) = 0
    rw [completionRateOf, if_pos h]
  · intro h0
    exact completionRate_round tasks.length (completedCount tasks) h0
  · norm_num [completionRateOf, rateTenths]
  · norm_num [completionRateOf, rateTenths]

/-- Witness for C3 at the concrete two-task scenario. -/
theorem claim_C3_witness :
    (analyze 0 scenarioTasks).stats.completionRate =
      ((round (((analyze 0 scenarioTasks).stats.completed : ℚ) /
          ((analyze 0 scenarioTasks).stats.total : ℚ) * 100 * 10) : ℤ) : ℚ) / 10 :=
  (claim_C3 0 scenarioTasks).2.2.2.2.1 (by decide)

/-- C8: analyze of the empty task sequence yields all-zero stats, the
empty-state summary, and present-but-empty insight, recommendation and
pattern sequences. -/
theorem claim_C8 (now : Nat) :
    analyze now [] = ⟨emptyStateMsg, ⟨0, 0, 0, 0⟩, [], [], []⟩ := rfl

/-- C10: the phase_V frontend taskService.agentPrompt returns the constant
stub response for every prompt and taskService.analyzeTask returns the
constant empty report; neither issues any HTTP request, and both results are
independent of the server state (hence of the user's tasks) and of the
prompt. -/
theorem claim_C10 (server : HttpRequest → String) (prompt : String) :
    phaseV_agentPrompt server prompt = (⟨"Assistant logic to be implemented"⟩, []) ∧
    (phaseV_agentPrompt server prompt).2 = [] ∧
    phaseV_analyzeTask server = (⟨"No analysis available", [], [], [], ⟨0, 0, 0, 0⟩⟩, []) ∧
    (phaseV_analyzeTask server).2 = [] ∧
    (∀ (server2 : HttpRequest → String) (prompt2 : String),
      phaseV_agentPrompt server prompt = phaseV_agentPrompt server2 prompt2 ∧
      phaseV_analyzeTask server = phaseV_analyzeTask server2) :=
  ⟨rfl, rfl, rfl, rfl, fun _ _ => ⟨rfl, rfl⟩⟩

/-- C2 counterexample: bare add task parses to an AddTask whose title is the
literal word task, and executing it succeeds with a repository call instead
of failing validation. -/
theorem claim_C2_cex :
    parse "add task" = Command.addTask "task" "" ∧
    (execute (parse "add task") ⟨1, []⟩).1 =
      Except.ok "Task \x27task\x27 added successfully!" ∧
    (execute (parse "add task") ⟨1, []⟩).2.2 = true := by
  refine ⟨by decide, ?_, ?_⟩ <;> rfl

/-- C2 as amended: under the canonical rule of section 4.1, bare add task
parses as AddTask with the literal title task, which passes the non-empty
title validation, so execute performs a repository call and creates a task
titled task. -/
theorem claim_C2_amended (m : DbTaskManager) :
    parse "add task" = Command.addTask "task" "" ∧
    (execute (parse "add task") m).1 =
      Except.ok "Task \x27task\x27 added successfully!" ∧
    (execute (parse "add task") m).2.2 = true ∧
    ∃ t ∈ (execute (parse "add task") m).2.1.tasks, t.title = "task" := by
  have hp : parse "add task" = Command.addTask "task" "" := by decide
  rw [hp]
  have hne : ¬ String.mk (trimChars ("task" : String).data) = "" := by decide
  refine ⟨rfl, ?_, ?_, ?_⟩
  · simp only [execute, if_neg hne]
    rfl
  · simp only [execute, if_neg hne]
  · simp only [execute, if_neg hne, create_task]
    exact ⟨_, List.mem_append_right _ (List.mem_singleton_self _), rfl⟩

theorem activeMsg_ne (n : ℕ) : activeMsg n ≠ excellentMsg := by
  intro h
  have h9 : (activeMsg n).data[9]? = excellentMsg.data[9]? := by rw [h]
  rw [show (activeMsg n).data[9]? = some 'b' from rfl] at h9
  rw [show excellentMsg.data[9]? = some 'a' from by decide] at h9
  exact absurd h9 (by decide)

theorem recLine_ne (t : TaskSnapshot) : recLine t ≠ quickWinsMsg := by
  intro h
  have h0 : (recLine t).data[0]? = quickWinsMsg.data[0]? := by rw [h]
  rw [show (recLine t).data[0]? = some 'S' from rfl] at h0
  rw [show quickWinsMsg.data[0]? = some 'T' from by decide] at h0
  exact absurd h0 (by decide)

theorem foldl_olderOf_mem (ts : List TaskSnapshot) (t : TaskSnapshot) :
    ts.foldl olderOf t ∈ t :: ts := by
  induction ts generalizing t with
  | nil => simp
  | cons u us ih =>
    have h := ih (olderOf t u)
    rw [List.foldl_cons]
    rcases List.mem_cons.mp h with h1 | h1
    · rw [h1]
      unfold olderOf
      split
      · exact List.mem_cons_of_mem _ (List.mem_cons_self _ _)
      · exact List.mem_cons_self _ _
    · exact List.mem_cons_of_mem _ (List.mem_cons_of_mem _ h1)

theorem foldl_olderOf_le (ts : List TaskSnapshot) (t : TaskSnapshot) :
    ∀ u ∈ t :: ts, (ts.foldl olderOf t).createdAt ≤ u.createdAt := by
  induction ts generalizing t with
  | nil =>
    intro u hu
    simp at hu
    subst hu
    exact le_rfl
  | cons v vs ih =>
    intro u hu
    have hmin1 : (olderOf t v).createdAt ≤ t.createdAt := by
      unfold olderOf
      split <;> omega
    have hmin2 : (olderOf t v).createdAt ≤ v.createdAt := by
      unfold olderOf
      split <;> omega
    rw [List.foldl_cons]
    have hres : (vs.foldl olderOf (olderOf t v)).createdAt ≤ (olderOf t v).createdAt :=
      ih (olderOf t v) _ (List.mem_cons_self _ _)
    rcases List.mem_cons.mp hu with h1 | h1
    · subst h1
      exact le_trans hres hmin1
    · rcases List.mem_cons.mp h1 with h2 | h2
      · subst h2
        exact le_trans hres hmin2
      · exact ih (olderOf t v) u (List.mem_cons_of_mem _ h2)

/-- C4: the excellent-completion-rate insight appears exactly when the
completion rate is at least 75, the high-recent-activity insight appears
exactly when at least 3 tasks were created within the last 7 days, each is
derived independently, and the insight order is the evaluation order. -/
theorem claim_C4 (now : Nat) (tasks : List TaskSnapshot) :
    (analyze now tasks).insights =
      (if 75 ≤ (mkStats tasks).completionRate then [excellentMsg] else []) ++
      (if 3 ≤ recentCount now tasks then [activeMsg (recentCount now tasks)] else []) ∧
    (excellentMsg ∈ (analyze now tasks).insights ↔
      75 ≤ (mkStats tasks).completionRate) ∧
    ((∃ n, activeMsg n ∈ (analyze now tasks).insights) ↔
      3 ≤ recentCount now tasks) := by
  refine ⟨rfl, ?_, ?_⟩
  · show excellentMsg ∈ insightsOf now tasks (mkStats tasks) ↔ _
    unfold insightsOf
    split_ifs with h1 h2 h2
    · simp [h1]
    · simp [h1]
    · simp only [List.nil_append, List.mem_singleton, h1, iff_false]
      exact fun hh => activeMsg_ne _ hh.symm
    · simp [h1]
  · constructor
    · rintro ⟨n, hn⟩
      have hn' : activeMsg n ∈
          (if 75 ≤ (mkStats tasks).completionRate then [excellentMsg] else []) ++
          (if 3 ≤ recentCount now tasks then [activeMsg (recentCount now tasks)]
            else []) := hn
      by_contra hrc
      rw [if_neg hrc, List.append_nil] at hn'
      split_ifs at hn' with h1
      · simp only [List.mem_singleton] at hn'
        exact activeMsg_ne n hn'
      · simp at hn'
    · intro h3
      refine ⟨recentCount now tasks, ?_⟩
      show activeMsg _ ∈
        (if 75 ≤ (mkStats tasks).completionRate then [excellentMsg] else []) ++
        (if 3 ≤ recentCount now tasks then [activeMsg (recentCount now tasks)]
          else [])
      exact List.mem_append_right _
        (by rw [if_pos h3]; exact List.mem_singleton_self _)

/-- C5: whenever at least one task is pending, the first recommendation
references (by id and title) a pending task with the earliest creation time,
the generic quick-wins suggestion is present exactly when more than one task
is pending, and the recommendation list never exceeds five entries. -/
theorem claim_C5 (now : Nat) (tasks : List TaskSnapshot) :
    (pendingOf tasks ≠ [] →
      ∃ t0, t0 ∈ pendingOf tasks ∧
        (∀ u ∈ pendingOf tasks, t0.createdAt ≤ u.createdAt) ∧
        ((analyze now tasks).recommendations).head? = some (recLine t0) ∧
        (quickWinsMsg ∈ (analyze now tasks).recommendations ↔
          1 < (pendingOf tasks).length)) ∧
    ((analyze now tasks).recommendations).length ≤ 5 := by
  constructor
  · intro hne
    obtain ⟨p, ps, hp⟩ := List.exists_cons_of_ne_nil hne
    refine ⟨ps.foldl olderOf p, ?_, ?_, ?_, ?_⟩
    · rw [hp]
      exact foldl_olderOf_mem ps p
    · rw [hp]
      exact foldl_olderOf_le ps p
    · show (recommendationsOf tasks).head? = _
      simp only [recommendationsOf, hp, oldestPending]
      rw [List.singleton_append, List.take_succ_cons, List.head?_cons]
    · show quickWinsMsg ∈ recommendationsOf tasks ↔ _
      simp only [recommendationsOf, hp, oldestPending]
      split_ifs with hlen
      · simp at hlen ⊢
        omega
      · simp only [List.append_nil, List.take_succ_cons, List.take_nil,
          List.mem_singleton, hlen, iff_false]
        exact fun hh => recLine_ne _ hh.symm
  · show ((_ : List String).take 5).length ≤ 5
    rw [List.length_take]
    exact min_le_left _ _

/-- Witness for C5 at the concrete two-task scenario. -/
theorem claim_C5_witness :
    (∃ t0, t0 ∈ pendingOf scenarioTasks ∧
      (∀ u ∈ pendingOf scenarioTasks, t0.createdAt ≤ u.createdAt) ∧
      ((analyze 0 scenarioTasks).recommendations).head? = some (recLine t0) ∧
      (quickWinsMsg ∈ (analyze 0 scenarioTasks).recommendations ↔
        1 < (pendingOf scenarioTasks).length)) ∧
    ((analyze 0 scenarioTasks).recommendations).length ≤ 5 :=
  ⟨(claim_C5 0 scenarioTasks).1 (by decide), (claim_C5 0 scenarioTasks).2⟩

/-- C9 counterexample: for the empty task sequence no word reaches the
frequency threshold, yet the pattern section is empty rather than the
neutral fallback observation, per the zero-task edge case. -/
theorem claim_C9_cex :
    patternsOf [] = [] ∧ topThemes [] = [] ∧
    fallbackMsg ∉ patternsOf ([] : List TaskSnapshot) := by
  refine ⟨rfl, rfl, ?_⟩
  rw [show patternsOf [] = [] from rfl]
  exact List.not_mem_nil _

/-- C9 as amended: for every non-empty task sequence the pattern section is
the rendered top-3 frequency themes when any word reaches the threshold and
the neutral fallback observation otherwise; every reported theme has a count
of at least 2 that is the true frequency of that lowercased word among the
filtered title tokens, at most 3 themes are reported, and the two-task
buy-milk and buy-bread scenario reports buy with count 2 (the zero-task case
instead yields an empty pattern sequence). -/
theorem claim_C9_amended :
    (∀ tasks : List TaskSnapshot, tasks ≠ [] →
      (topThemes tasks = [] → patternsOf tasks = [fallbackMsg]) ∧
      (topThemes tasks ≠ [] → patternsOf tasks =
        ["Common themes: " ++
          String.intercalate ", " ((topThemes tasks).map themeEntry)])) ∧
    (∀ tasks : List TaskSnapshot, ∀ p ∈ topThemes tasks,
      2 ≤ p.2 ∧ p.2 = countIn (keywordsOf tasks) p.1) ∧
    (∀ tasks : List TaskSnapshot, (topThemes tasks).length ≤ 3) ∧
    topThemes scenarioTasks = [("buy".data, 2)] ∧
    patternsOf scenarioTasks = ["Common themes: buy (2)"] := by
  refine ⟨?_, ?_, ?_, by decide, by decide⟩
  · intro tasks hne
    obtain ⟨a, as, rfl⟩ := List.exists_cons_of_ne_nil hne
    constructor
    · intro h0
      simp only [patternsOf, h0]
      rfl
    · intro hne2
      obtain ⟨p, ps, hpp⟩ := List.exists_cons_of_ne_nil hne2
      simp only [patternsOf, hpp]
      rfl
  · intro tasks p hp
    have h1 : p ∈ List.insertionSort (fun p q : List Char × Nat => q.2 ≤ p.2)
        (themePairs tasks) := List.take_subset 3 _ hp
    have h2 : p ∈ themePairs tasks :=
      (List.perm_insertionSort _ _).mem_iff.mp h1
    have h3 := List.mem_filter.mp h2
    refine ⟨of_decide_eq_true h3.2, ?_⟩
    obtain ⟨w, hw, rfl⟩ := List.mem_map.mp h3.1
    rfl
  · intro tasks
    rw [topThemes, List.length_take]
    exact min_le_left _ _

/-- Witness for C9 at the concrete two-task scenario. -/
theorem claim_C9_witness :
    (topThemes scenarioTasks = [] → patternsOf scenarioTasks = [fallbackMsg]) ∧
    (topThemes scenarioTasks ≠ [] → patternsOf scenarioTasks =
      ["Common themes: " ++
        String.intercalate ", " ((topThemes scenarioTasks).map themeEntry)]) :=
  claim_C9_amended.1 scenarioTasks (by decide)

/-- C6: parse is total and falls back to Unrecognized carrying the raw text
whenever no rule matches; a digit capture that is not a positive integer is
unrecognized; keyword matching is case-insensitive and the utterance is
whitespace-trimmed; dispatching an Unrecognized command yields a ParseError
carrying the help message, without a repository call. -/
theorem claim_C6 :
    (∀ text : String,
      rule1 (trimChars text.data) = none →
      rule2 (trimChars text.data) = none →
      ruleIdCmd completeKw doneKw Command.completeTask (trimChars text.data) = none →
      ruleIdCmd deleteKw removeKw Command.deleteTask (trimChars text.data) = none →
      rule5 (trimChars text.data) = none →
      parse text = Command.unrecognized text) ∧
    parse "xyz nonsense" = Command.unrecognized "xyz nonsense" ∧
    parse "complete 0" = Command.unrecognized "complete 0" ∧
    parse "ADD TASK Buy Milk" = Command.addTask "Buy Milk" "" ∧
    parse "  complete 7 " = Command.completeTask 7 ∧
    (∀ (raw : String) (m : DbTaskManager),
      execute (Command.unrecognized raw) m =
        (Except.error (DispatchError.parseError helpMsg), m, false)) := by
  refine ⟨?_, by decide, by decide, by decide, by decide, fun raw m => rfl⟩
  intro text h1 h2 h3 h4 h5
  simp only [parse, h1, h2, h3, h4, h5]

/-- Witness for C6: a concrete utterance matching no rule parses to
Unrecognized. -/
theorem claim_C6_witness : parse "qq zz" = Command.unrecognized "qq zz" :=
  claim_C6.1 "qq zz" (by decide) (by decide) (by decide) (by decide) (by decide)

theorem find?_map_toggle (l : List DbTask) (tid : Nat) (t2 : DbTask)
    (hf : (l.find? (fun u => decide (u.id = tid))).isSome)
    (h2 : t2.id = tid) :
    (l.map (fun u => if u.id = tid then t2 else u)).find?
      (fun u => decide (u.id = tid)) = some t2 := by
  induction l with
  | nil => simp [List.find?] at hf
  | cons a as ih =>
    rw [List.map_cons]
    by_cases ha : a.id = tid
    · rw [if_pos ha]
      exact List.find?_cons_of_pos _ (by simp [h2])
    · rw [if_neg ha]
      rw [List.find?_cons_of_neg _ (by simp [ha])]
      rw [List.find?_cons_of_neg _ (by simp [ha])] at hf
      exact ih hf

/-- C7: parse of complete 7 dispatches a toggle of task 7; when the task
exists in the repository and is owned by the caller the toggle succeeds and
flips the completed flag, while a missing id and an id owned by another
principal both yield the same NotFoundError, rendered uniformly as the single
message Task not found. -/
theorem claim_C7 :
    parse "complete 7" = Command.completeTask 7 ∧
    renderError DispatchError.notFoundError = "Task not found" ∧
    (∀ (m : DbTaskManager) (t : DbTask),
      sessionGet m.tasks 7 = some t → t.user_id = m.user_id →
        (∃ msg, (execute (parse "complete 7") m).1 = Except.ok msg) ∧
        sessionGet ((execute (parse "complete 7") m).2.1).tasks 7 =
          some (toggledDb t) ∧
        (execute (parse "complete 7") m).2.2 = true) ∧
    (∀ m : DbTaskManager, sessionGet m.tasks 7 = none →
      (execute (parse "complete 7") m).1 =
        Except.error DispatchError.notFoundError) ∧
    (∀ (m : DbTaskManager) (t : DbTask),
      sessionGet m.tasks 7 = some t → t.user_id ≠ m.user_id →
      (execute (parse "complete 7") m).1 =
        Except.error DispatchError.notFoundError) := by
  have hp : parse "complete 7" = Command.completeTask 7 := by decide
  rw [hp]
  refine ⟨rfl, rfl, ?_, ?_, ?_⟩
  · intro m t hsg hown
    have hsg' : m.tasks.find? (fun u => decide (u.id = 7)) = some t := hsg
    have hid : t.id = 7 := by
      have hpd := List.find?_some hsg'
      simpa using hpd
    have htog : toggle_task_completion m 7 =
        (some (toggledDb t),
         ⟨m.user_id, m.tasks.map (fun u => if u.id = 7 then toggledDb t else u)⟩) := by
      simp only [toggle_task_completion, hsg]
      rw [if_neg (show ¬t.user_id ≠ m.user_id from fun hh => hh hown)]
      rfl
    have hexec : execute (Command.completeTask 7) m =
        (Except.ok ("Task " ++ toString 7 ++
          (if (toggledDb t).completed then " marked as complete!"
            else " marked as pending!")),
         ⟨m.user_id, m.tasks.map (fun u => if u.id = 7 then toggledDb t else u)⟩,
         true) := by
      simp only [execute, htog]
    rw [hexec]
    refine ⟨⟨_, rfl⟩, ?_, rfl⟩
    show (m.tasks.map (fun u => if u.id = 7 then toggledDb t else u)).find?
      (fun u => decide (u.id = 7)) = some (toggledDb t)
    exact find?_map_toggle m.tasks 7 (toggledDb t)
      (by rw [show m.tasks.find? (fun u => decide (u.id = 7)) =
            sessionGet m.tasks 7 from rfl, hsg]; rfl)
      hid
  · intro m hsg
    have htog : toggle_task_completion m 7 = (none, m) := by
      simp only [toggle_task_completion, hsg]
    simp only [execute, htog]
  · intro m t hsg hown
    have htog : toggle_task_completion m 7 = (none, m) := by
      simp only [toggle_task_completion, hsg]
      rw [if_pos hown]
    simp only [execute, htog]

/-- Witness for C7 at a concrete repository where user 5 owns task 7. -/
theorem claim_C7_witness :
    (∃ msg, (execute (parse "complete 7") witnessRepo).1 = Except.ok msg) ∧
    sessionGet ((execute (parse "complete 7") witnessRepo).2.1).tasks 7 =
      some (toggledDb witnessTask) ∧
    (execute (parse "complete 7") witnessRepo).2.2 = true :=
  claim_C7.2.2.1 witnessRepo witnessTask (by decide) rfl

theorem dropWs_cons_of_not (c : Char) (l : List Char) (h : c.isWhitespace = false) :
    dropWs (c :: l) = c :: l := by
  simp [dropWs, h]

theorem length_dropWs_le (l : List Char) : (dropWs l).length ≤ l.length := by
  induction l with
  | nil => simp [dropWs]
  | cons c cs ih =>
    rw [dropWs]
    split
    · exact le_trans ih (Nat.le_succ _)
    · exact le_rfl

theorem head_not_ws_of_dropWs_fix (c : Char) (l : List Char)
    (h : dropWs (c :: l) = c :: l) : c.isWhitespace = false := by
  by_contra hc
  rw [Bool.not_eq_false] at hc
  rw [dropWs, if_pos hc] at h
  have h1 := length_dropWs_le l
  have h2 := congrArg List.length h
  simp at h2
  omega

theorem dropWs_append_of_fix (l m : List Char) (hl : dropWs l = l) (hne : l ≠ []) :
    dropWs (l ++ m) = l ++ m := by
  obtain ⟨c, cs, rfl⟩ := List.exists_cons_of_ne_nil hne
  have hc := head_not_ws_of_dropWs_fix c cs hl
  rw [List.cons_append]
  exact dropWs_cons_of_not _ _ hc

theorem trimChars_concat (c0 : Char) (cs0 T : List Char)
    (hw : c0.isWhitespace = false)
    (_hL : dropWs T = T) (hR : trimRight T = T) (hne : T ≠ []) :
    trimChars ((c0 :: cs0) ++ T) = (c0 :: cs0) ++ T := by
  have h1 : dropWs ((c0 :: cs0) ++ T) = (c0 :: cs0) ++ T := by
    rw [List.cons_append]
    exact dropWs_cons_of_not _ _ hw
  rw [trimChars, h1, trimRight]
  have hrev : dropWs T.reverse = T.reverse := by
    have h2 := congrArg List.reverse hR
    rw [trimRight] at h2
    simpa using h2
  have hrne : T.reverse ≠ [] := by simpa using hne
  have h3 : dropWs (((c0 :: cs0) ++ T).reverse) = ((c0 :: cs0) ++ T).reverse := by
    rw [List.reverse_append]
    exact dropWs_append_of_fix _ _ hrev hrne
  rw [h3, List.reverse_reverse]

theorem stripKwWs_add_task_concat (T : List Char) :
    (stripKwWs addKw ("add task ".data ++ T)).orElse
      (fun _ => stripKwWs createKw ("add task ".data ++ T)) =
    some ('t' :: 'a' :: 's' :: 'k' :: ' ' :: T) := rfl

theorem stripKwWs_task_concat (T : List Char) :
    stripKwWs taskKw ('t' :: 'a' :: 's' :: 'k' :: ' ' :: T) = some (dropWs T) := rfl

theorem stripKwWs_add_concat (T : List Char) :
    (stripKwWs addKw ("add ".data ++ T)).orElse
      (fun _ => stripKwWs createKw ("add ".data ++ T)) =
    some (dropWs T) := rfl

theorem rule1_add_task (T : List Char) (hL : dropWs T = T) (hR : trimRight T = T)
    (hne : T ≠ []) :
    rule1 ("add task ".data ++ T) = some (Command.addTask (String.mk T) "") := by
  obtain ⟨d, ds, rfl⟩ := List.exists_cons_of_ne_nil hne
  have htrim : trimChars (d :: ds) = d :: ds := by rw [trimChars, hL, hR]
  unfold rule1
  rw [stripKwWs_add_task_concat]
  show (let cap3 :=
      match stripKwWs taskKw ('t' :: 'a' :: 's' :: 'k' :: ' ' :: (d :: ds)) with
      | some (e :: es) => e :: es
      | _ => 't' :: 'a' :: 's' :: 'k' :: ' ' :: (d :: ds)
    some (Command.addTask (String.mk (trimChars cap3)) "")) =
    some (Command.addTask (String.mk (d :: ds)) "")
  rw [stripKwWs_task_concat, hL]
  show some (Command.addTask (String.mk (trimChars (d :: ds))) "") =
    some (Command.addTask (String.mk (d :: ds)) "")
  rw [htrim]

theorem rule1_add (T : List Char) (hL : dropWs T = T) (hR : trimRight T = T)
    (hne : T ≠ []) (hTK : takesTaskKw T = false) :
    rule1 ("add ".data ++ T) = some (Command.addTask (String.mk T) "") := by
  obtain ⟨d, ds, rfl⟩ := List.exists_cons_of_ne_nil hne
  have htrim : trimChars (d :: ds) = d :: ds := by rw [trimChars, hL, hR]
  unfold rule1
  rw [stripKwWs_add_concat, hL]
  show (let cap3 :=
      match stripKwWs taskKw (d :: ds) with
      | some (e :: es) => e :: es
      | _ => d :: ds
    some (Command.addTask (String.mk (trimChars cap3)) "")) =
    some (Command.addTask (String.mk (d :: ds)) "")
  rcases hstk : stripKwWs taskKw (d :: ds) with _ | r
  · show some (Command.addTask (String.mk (trimChars (d :: ds))) "") = _
    rw [htrim]
  · rcases r with _ | ⟨e, es⟩
    · show some (Command.addTask (String.mk (trimChars (d :: ds))) "") = _
      rw [htrim]
    · rw [takesTaskKw, hstk] at hTK
      simp at hTK

/-- C1 counterexample: the input add task hunt has the form add "task hunt"
with a non-empty multi-word title, yet parse yields the shifted title hunt,
not the whole title task hunt. -/
theorem claim_C1_cex :
    ("add " ++ "task hunt" : String) = "add task hunt" ∧
    parse "add task hunt" = Command.addTask "hunt" "" ∧
    ("hunt" : String) ≠ "task hunt" := by
  refine ⟨by decide, by decide, by decide⟩

/-- C1 as amended: for every trimmed non-empty title, parse of add task
followed by the title yields AddTask with exactly that whole title and empty
description (the greedy capture), and parse of add followed by the title does
the same provided the title does not itself begin with the reserved keyword
task followed by more text; in particular add task buy milk and eggs parses
to the full title buy milk and eggs. -/
theorem claim_C1_amended :
    (∀ title : String,
      dropWs title.data = title.data → trimRight title.data = title.data →
      title.data ≠ [] →
      parse ("add task " ++ title) = Command.addTask title "" ∧
      (takesTaskKw title.data = false →
        parse ("add " ++ title) = Command.addTask title "")) ∧
    parse "add task buy milk and eggs" = Command.addTask "buy milk and eggs" "" ∧
    parse "add buy milk and eggs" = Command.addTask "buy milk and eggs" "" := by
  refine ⟨?_, by decide, by decide⟩
  intro title hL hR hne
  constructor
  · have htc : trimChars (("add task " ++ title).data) =
        "add task ".data ++ title.data :=
      trimChars_concat 'a' "dd task ".data title.data (by decide) hL hR hne
    have hr1 := rule1_add_task title.data hL hR hne
    simp only [parse]
    rw [htc, hr1]
  · intro hTK
    have htc : trimChars (("add " ++ title).data) = "add ".data ++ title.data :=
      trimChars_concat 'a' "dd ".data title.data (by decide) hL hR hne
    have hr1 := rule1_add title.data hL hR hne hTK
    simp only [parse]
    rw [htc, hr1]

/-- Witness for C1 at the concrete multi-word title buy milk. -/
theorem claim_C1_witness :
    parse ("add task " ++ "buy milk") = Command.addTask "buy milk" "" ∧
    (takesTaskKw ("buy milk" : String).data = false →
      parse ("add " ++ "buy milk") = Command.addTask "buy milk" "") :=
  claim_C1_amended.1 "buy milk" (by decide) (by decide) (by decide)

example : parse "add task buy milk and eggs" = Command.addTask "buy milk and eggs" "" := by decide
example : parse "add buy groceries" = Command.addTask "buy groceries" "" := by decide
example : parse "add task" = Command.addTask "task" "" := by decide
example : parse "list" = Command.listTasks none := by decide
example : parse "show tasks" = Command.listTasks none := by decide
example : parse "complete 12" = Command.completeTask 12 := by decide
example : parse "done 1" = Command.completeTask 1 := by decide
example : parse "delete 2" = Command.deleteTask 2 := by decide
example : parse "update 12 Buy whole milk" = Command.updateTask 12 "Buy whole milk" := by decide
example : parse "xyz nonsense" = Command.unrecognized "xyz nonsense" := by decide
example : parse "complete 0" = Command.unrecognized "complete 0" := by decide
example : parse "ADD TASK Buy Milk" = Command.addTask "Buy Milk" "" := by decide
example : parse "  complete 7 " = Command.completeTask 7 := by decide
example : parse "add task hunt" = Command.addTask "hunt" "" := by decide
